import Mathlib

/-!
Shallow embedding of the heatmap-generation notebook of
lifecanvastech/figure-generation, together with theorems about the claims
of the specification.

The notebook defines `make_heatmap_fig` and `write_one_heatmap`.  Integer
label volumes become nested lists of naturals, the metric CSV column
becomes a list of `(id, value)` rows with rational values (the notebook
works with Python floats; the arithmetic of the spec is modelled exactly
over `ℚ`, with the literal `1.1` rendered as `11/10`), and matplotlib
calls become records describing exactly the data handed to them.
-/

namespace FigGen

/-- A 2D z-slice of the annotation volume: a grid of region ids. -/
abbrev Slice := List (List Nat)

/-- A 3D annotation volume: `anno[z]` is a 2D slice. -/
abbrev Volume := List Slice

/-- The rows of the metric CSV, restricted to the `id` column and the
selected metric column: pairs `(id, value)`. -/
abbrev Table := List (Nat × ℚ)

/-- Maximum of a list of naturals (`np.max` / `k.max()`); `0` on `[]`. -/
def listMax (l : List Nat) : Nat := l.foldr Nat.max 0

/-- Maximum region id occurring in a 2D slice. -/
def sliceMax (s : Slice) : Nat := listMax (s.map listMax)

/-- Maximum region id occurring in the volume: `id_max = np.max(anno)`. -/
def volMax (anno : Volume) : Nat := listMax (anno.map sliceMax)

/-- The in-place scaling `counts[col_name] *= col_multiplier`. -/
def scaleTable (t : Table) (c : ℚ) : Table := t.map (fun p => (p.1, p.2 * c))

/-- The scaled metric column `counts[col_name]` (after the multiplication). -/
def scaledValues (t : Table) (c : ℚ) : List ℚ := (scaleTable t c).map Prod.snd

/-- Value carried by the first row of `t` whose id is `i`, if any. -/
def lookupId (t : Table) (i : Nat) : Option ℚ :=
  (t.find? (fun p => p.1 == i)).map Prod.snd

/-- The pandas pipeline `set_index("id").reindex(new_index).reset_index().fillna(0)`
with `new_index = range(id_max + 1)`: one row per id in `0..id_max`, carrying the
table's value when the id is present and `0` otherwise; rows whose id exceeds
`id_max` are dropped by the reindex. -/
def reindexFill (t : Table) (idMax : Nat) : Table :=
  (List.range (idMax + 1)).map (fun i => (i, (lookupId t i).getD 0))

/-- Python dict assignment `d[k] = v`: overwrite in place when the key is
present, append otherwise. -/
def dictSet (t : Table) (k : Nat) (v : ℚ) : Table :=
  if (t.find? (fun p => p.1 == k)).isSome then
    t.map (fun p => if p.1 == k then (p.1, v) else p)
  else t ++ [(k, v)]

/-- `counts_dict`: scale the metric column, reindex/fill over `0..id_max`, then
`counts_dict[0] = 0`. -/
def countsDict (t : Table) (c : ℚ) (idMax : Nat) : Table :=
  dictSet (reindexFill (scaleTable t c) idMax) 0 0

/-- The numpy fancy-index assignment `mapping_ar[k] = v`, writing the pairs in
order into the array. -/
def scatterWrite (arr : List ℚ) : Table → List ℚ
  | [] => arr
  | p :: ps => scatterWrite (arr.set p.1 p.2) ps

/-- `mapping_ar = np.zeros(k.max() + 1); mapping_ar[k] = v` where `k` and `v`
are the keys and values of the dict, in insertion order. -/
def mapping_ar (dict : Table) : List ℚ :=
  scatterWrite (List.replicate (listMax (dict.map Prod.fst) + 1) 0) dict

/-- The Lookup Array built by `make_heatmap_fig` from the metric table, the
correction factor and the annotation volume. -/
def buildLookup (t : Table) (c : ℚ) (anno : Volume) : List ℚ :=
  mapping_ar (countsDict t c (volMax anno))

/-- Option-valued traversal of a list, `none` as soon as one element maps to
`none`. -/
def optionTraverse {α β : Type} (f : α → Option β) : List α → Option (List β)
  | [] => some []
  | a :: l =>
    match f a, optionTraverse f l with
    | some b, some bs => some (b :: bs)
    | _, _ => none

/-- The numpy fancy indexing `new_slice = mapping_ar[anno_slice]`: substitute
every label by its lookup entry, failing (`none`, numpy `IndexError`) when a
label is out of the array's range. -/
def renderSlice (lookup : List ℚ) (s : Slice) : Option (List (List ℚ)) :=
  optionTraverse (fun row => optionTraverse (fun l => lookup.get? l) row) s

/-- The per-id value held by `counts_dict`: `0` at id `0`, otherwise the scaled
table value when present and `0` when absent. -/
def dictVal (t : Table) (c : ℚ) (i : Nat) : ℚ :=
  if i = 0 then 0 else (lookupId (scaleTable t c) i).getD 0

/-! Boundary Overlay Compositor: `find_boundaries(anno_slice, mode="thick")`
followed by `dilation(boundaries)` and the NaN masking of sub-threshold
pixels.  The 0/1 float mask with threshold `0.5` is modelled as a `Bool`
grid: `true` is a drawn boundary pixel, `false` the NaN/transparent pixel. -/

/-- Label at integer coordinates, `none` outside the grid. -/
def getLabel (s : Slice) (r c : ℤ) : Option Nat :=
  if 0 ≤ r ∧ 0 ≤ c then (s.get? r.toNat).bind (fun row => row.get? c.toNat) else none

/-- Offsets of the 4-connected (connectivity-1 / cross) neighbourhood. -/
def nbhd4 : List (ℤ × ℤ) := [(-1, 0), (1, 0), (0, -1), (0, 1)]

/-- A pixel is a thick-mode boundary pixel iff some in-bounds 4-neighbour
carries a different label (skimage: `dilation(img) != erosion(img)` over the
cross footprint, reflect padding at the border). -/
def isBoundary (s : Slice) (r c : ℤ) : Bool :=
  match getLabel s r c with
  | none => false
  | some v =>
    nbhd4.any (fun d =>
      match getLabel s (r + d.1) (c + d.2) with
      | some w => w != v
      | none => false)

/-- `find_boundaries(anno_slice, mode="thick")` as a boolean grid of the same
shape as the slice. -/
def findBoundariesThick (s : Slice) : List (List Bool) :=
  (List.range s.length).map (fun r =>
    (List.range ((s.get? r).getD []).length).map (fun c =>
      isBoundary s (r : ℤ) (c : ℤ)))

/-- Mask value at integer coordinates, `false` outside the grid. -/
def maskAt (m : List (List Bool)) (r c : ℤ) : Bool :=
  if 0 ≤ r ∧ 0 ≤ c then
    (((m.get? r.toNat).bind (fun row => row.get? c.toNat)).getD false)
  else false

/-- `dilation(boundaries)` with the default cross structuring element:
maximum of the pixel and its in-bounds 4-neighbours. -/
def dilateCross (m : List (List Bool)) : List (List Bool) :=
  (List.range m.length).map (fun r =>
    (List.range ((m.get? r).getD []).length).map (fun c =>
      (maskAt m (r : ℤ) (c : ℤ) ||
        nbhd4.any (fun d => maskAt m ((r : ℤ) + d.1) ((c : ℤ) + d.2)))))

/-- The Boundary Mask drawn over a slice: thick boundaries, dilated once;
`true` pixels are drawn, `false` pixels are the NaN/transparent ones. -/
def boundaryMask (s : Slice) : List (List Bool) :=
  dilateCross (findBoundariesThick s)

/-- Relabelling of the region ids of a slice. -/
def relabel (f : Nat → Nat) (s : Slice) : Slice :=
  s.map (fun row => row.map f)

/-! The legend's upper display bound. -/

/-- Python's builtin `round`: round half to even. -/
def pyRound (x : ℚ) : ℤ :=
  if x - ⌊x⌋ < 1/2 then ⌊x⌋
  else if (1 : ℚ)/2 < x - ⌊x⌋ then ⌊x⌋ + 1
  else if 2 ∣ ⌊x⌋ then ⌊x⌋ else ⌊x⌋ + 1

/-- `density_bound = round_to * (round(max(counts[col_name]) * 1.1 / round_to) + 1)`,
with the literal `1.1` taken exactly as `11/10`. -/
def densityBound (roundTo mx : ℚ) : ℚ :=
  roundTo * ((pyRound (mx * (11/10) / roundTo) : ℚ) + 1)

/-! Figure assembly: a model of `make_heatmap_fig` returning the data handed
to matplotlib, and of `write_one_heatmap`. -/

/-- Data handed to the pair of `imshow` calls of one subplot panel: the color
scale's `vmax`, the Rendered Slice, the Boundary Mask and the alpha of the
boundary overlay. -/
structure PanelSpec where
  vmax : ℚ
  newSlice : List (List ℚ)
  boundaries : List (List Bool)
  borderAlpha : ℚ
  deriving DecidableEq

/-- Figure-level output of `make_heatmap_fig`: the panels together with the
colorbar's ticks, tick label size and title font size. -/
structure FigureSpec where
  panels : List PanelSpec
  cbTicks : List ℤ
  cbLabelsize : ℚ
  cbTitleFontsize : ℚ
  deriving DecidableEq

/-- Python's builtin `max()` over a list; `none` is the `ValueError` raised on
an empty sequence. -/
def seriesMax : List ℚ → Option ℚ
  | [] => none
  | x :: xs => some (xs.foldl max x)

/-- The message of the failed layout check, `"{} plot layout doens't have
enough subplots for {} slices!".format(fig_layout, len(zs))` (typo as in the
source). -/
def layoutErrorMsg (layout : Nat × Nat) (n : Nat) : String :=
  "(" ++ toString layout.1 ++ ", " ++ toString layout.2 ++
    ") plot layout doens\x27t have enough subplots for " ++ toString n ++ " slices!"

/-- Traversal of a list through `Except`, stopping at the first error, as the
panel loop does. -/
def exceptTraverse {ε α β : Type} (f : α → Except ε β) : List α → Except ε (List β)
  | [] => .ok []
  | a :: l =>
    match f a with
    | .error e => .error e
    | .ok b =>
      match exceptTraverse f l with
      | .error e => .error e
      | .ok bs => .ok (b :: bs)

/-- The per-panel body shared (textually duplicated) by the two rendering
paths of `make_heatmap_fig`: boundaries of the z-slice, dilated and
NaN-masked, the vectorized substitution `mapping_ar[anno_slice]`, and the two
`imshow` layers with `vmax = density_bound` and the given boundary alpha. -/
def renderPanelWith (dict : Table) (bound alpha : ℚ) (anno : Volume) (z : Nat) :
    Except String PanelSpec :=
  match anno.get? z with
  | none => .error "IndexError: z index out of range"
  | some anno_slice =>
    match renderSlice (mapping_ar dict) anno_slice with
    | none => .error "IndexError: label out of range of mapping_ar"
    | some new_slice => .ok ⟨bound, new_slice, boundaryMask anno_slice, alpha⟩

/-- The per-panel computation of the `len(zs) == 1` path: boundary overlay
drawn with `alpha=0.4`. -/
def singlePathPanel (dict : Table) (bound : ℚ) (anno : Volume) (z : Nat) :
    Except String PanelSpec :=
  renderPanelWith dict bound (2/5) anno z

/-- The per-panel computation of the `len(zs) > 1` loop body: boundary overlay
drawn with `alpha=0.5`. -/
def multiPathPanel (dict : Table) (bound : ℚ) (anno : Volume) (z : Nat) :
    Except String PanelSpec :=
  renderPanelWith dict bound (1/2) anno z

/-- `make_heatmap_fig`: layout default and check, annotation read, metric
scaling, `counts_dict`, shared `density_bound`, then either the single-panel
path (hardcoded colorbar label size 18 and title size 20) or the multi-panel
loop (the `legend_numsize` / `legend_fontsize` parameters). -/
def make_heatmap_fig (anno_file : Option Volume) (cell_counts : Table)
    (zs : List Nat) (fig_layout : Option (Nat × Nat)) (col_multiplier : ℚ)
    (round_to : ℚ) (legend_fontsize legend_numsize : ℚ) :
    Except String FigureSpec :=
  let layout := fig_layout.getD (zs.length, 1)
  if layout.1 * layout.2 < zs.length then
    .error (layoutErrorMsg layout zs.length)
  else
    match anno_file with
    | none => .error "FileNotFoundError: could not read annotation file"
    | some anno =>
      match seriesMax (scaledValues cell_counts col_multiplier) with
      | none => .error "ValueError: max() arg is an empty sequence"
      | some mx =>
        let dict := countsDict cell_counts col_multiplier (volMax anno)
        let bound := densityBound round_to mx
        if zs.length = 1 then
          match singlePathPanel dict bound anno (zs.headD 0) with
          | .error e => .error e
          | .ok p => .ok ⟨[p], [0, pyRound bound], 18, 20⟩
        else
          match exceptTraverse (multiPathPanel dict bound anno) zs with
          | .error e => .error e
          | .ok ps => .ok ⟨ps, [0, pyRound bound], legend_numsize, legend_fontsize⟩

/-- The image description written by `write_one_heatmap`: color scale upper
bound, the two layers, the colormaps actually used, the boundary overlay
alpha and the colorbar ticks. -/
structure HeatmapImage where
  vmax : ℚ
  newSlice : List (List ℚ)
  boundaries : List (List Bool)
  heatCmap : String
  borderCmapUsed : String
  borderAlpha : ℚ
  cbTicks : List ℤ
  deriving DecidableEq

/-- `write_one_heatmap`: the `border_cmap` parameter is accepted but never
read; the boundary overlay is drawn with the module-level global
`custom_cmap`, modelled here as the explicit `custom_cmap` argument. -/
def write_one_heatmap (custom_cmap : String) (anno : Volume) (counts : List ℚ)
    (counts_dict : Table) (z : Nat) (border_cmap : String) (filename : String)
    (cmap : String) (round_to : ℚ) (flip_x flip_y : Bool) :
    Except String (String × HeatmapImage) :=
  match seriesMax counts with
  | none => .error "ValueError: max() arg is an empty sequence"
  | some mx =>
    let density_bound := densityBound round_to mx
    match anno.get? z with
    | none => .error "IndexError: z index out of range"
    | some anno_slice =>
      let boundaries := boundaryMask anno_slice
      match renderSlice (mapping_ar counts_dict) anno_slice with
      | none => .error "IndexError: label out of range of mapping_ar"
      | some new_slice =>
        let ns1 := if flip_x then new_slice.map List.reverse else new_slice
        let bd1 := if flip_x then boundaries.map List.reverse else boundaries
        let ns2 := if flip_y then ns1.reverse else ns1
        let bd2 := if flip_y then bd1.reverse else bd1
        .ok (filename, ⟨density_bound, ns2, bd2, cmap, custom_cmap, 2/5,
          [0, pyRound density_bound]⟩)

/-! Animation frame export. -/

/-- Python `str.zfill` on an unsigned digit string: pad on the left with
zeros up to the requested width. -/
def zfill (w : Nat) (s : String) : String :=
  String.mk (List.replicate (w - s.length) '0') ++ s

/-- The frame file path `output_dir + "/img_" + str(i).zfill(4) + output_ext`. -/
def frame_filename (output_dir output_ext : String) (i : Nat) : String :=
  output_dir ++ "/img_" ++ zfill 4 (Nat.repr i) ++ output_ext

/-- The file paths written by the export loop `for i, z in enumerate(zs)`. -/
def frame_filenames (output_dir output_ext : String) (zs : List Nat) : List String :=
  zs.enum.map (fun iz => frame_filename output_dir output_ext iz.1)

/-! Lemmas and theorems. -/

/-! Basic lemmas about `listMax`. -/

lemma le_listMax {a : Nat} {l : List Nat} : a ∈ l → a ≤ listMax l := by
  induction l with
  | nil => exact fun h => absurd h (List.not_mem_nil _)
  | cons b t ih =>
    intro h
    rcases List.mem_cons.1 h with h | h
    · subst h
      exact Nat.le_max_left _ _
    · exact le_trans (ih h) (Nat.le_max_right _ _)

lemma listMax_le {l : List Nat} {b : Nat} : (∀ a ∈ l, a ≤ b) → listMax l ≤ b := by
  induction l with
  | nil => exact fun _ => Nat.zero_le _
  | cons a t ih =>
    intro h
    exact Nat.max_le.2 ⟨h a (List.mem_cons_self _ _), ih (fun x hx => h x (List.mem_cons_of_mem _ hx))⟩

lemma listMax_range (n : Nat) : listMax (List.range (n + 1)) = n := by
  refine le_antisymm (listMax_le ?_) (le_listMax ?_)
  · intro a ha
    exact Nat.lt_succ_iff.1 (List.mem_range.1 ha)
  · exact List.mem_range.2 (Nat.lt_succ_self n)

/-! Characterization of the dict and of the scattered lookup array. -/

lemma countsDict_eq (t : Table) (c : ℚ) (m : Nat) :
    countsDict t c m = (List.range (m + 1)).map (fun i => (i, dictVal t c i)) := by
  unfold countsDict dictSet reindexFill
  have hfind :
      (((List.range (m + 1)).map
          (fun i => (i, (lookupId (scaleTable t c) i).getD 0))).find?
        (fun p => p.1 == 0)).isSome := by
    rw [List.find?_isSome]
    exact ⟨(0, (lookupId (scaleTable t c) 0).getD 0),
      List.mem_map.2 ⟨0, List.mem_range.2 (Nat.succ_pos m), rfl⟩, rfl⟩
  rw [if_pos hfind, List.map_map]
  refine List.map_congr_left ?_
  intro i _
  by_cases h : i = 0
  · subst h
    simp [dictVal]
  · have hb : (i == 0) = false := beq_false_of_ne h
    simp [dictVal, hb, h]

lemma countsDict_fst (t : Table) (c : ℚ) (m : Nat) :
    (countsDict t c m).map Prod.fst = List.range (m + 1) := by
  rw [countsDict_eq, List.map_map]
  exact (List.map_congr_left (fun i _ => rfl)).trans (List.map_id _)

lemma scatterWrite_range' (ps : Table) :
    ∀ (arr : List ℚ) (k : Nat), ps.map Prod.fst = List.range' k ps.length →
      arr.length = k + ps.length →
      scatterWrite arr ps = arr.take k ++ ps.map Prod.snd := by
  induction ps with
  | nil =>
    intro arr k _ hlen
    simp only [List.length_nil, Nat.add_zero] at hlen
    simp [scatterWrite, hlen ▸ List.take_length arr]
  | cons p ps ih =>
    intro arr k hk hlen
    have hrange : List.range' k (ps.length + 1) = k :: List.range' (k + 1) ps.length :=
      List.range'_succ _ _ _
    rw [List.length_cons, hrange] at hk
    simp only [List.map_cons, List.cons.injEq] at hk
    obtain ⟨hp, hps⟩ := hk
    have hklt : k < arr.length := by
      rw [hlen, List.length_cons]; omega
    have hset : arr.set p.1 p.2 = arr.take k ++ p.2 :: arr.drop (k + 1) := by
      rw [hp, List.set_eq_take_append_cons_drop, if_pos hklt]
    have hlen2 : (arr.set p.1 p.2).length = (k + 1) + ps.length := by
      rw [List.length_set, hlen, List.length_cons]; omega
    have htake : (arr.set p.1 p.2).take (k + 1) = arr.take k ++ [p.2] := by
      rw [hset]
      have hklen : (arr.take k).length = k := List.length_take_of_le (le_of_lt hklt)
      calc (arr.take k ++ p.2 :: arr.drop (k + 1)).take (k + 1)
          = (arr.take k ++ p.2 :: arr.drop (k + 1)).take ((arr.take k).length + 1) := by
            rw [hklen]
        _ = arr.take k ++ (p.2 :: arr.drop (k + 1)).take 1 := List.take_append 1
        _ = arr.take k ++ [p.2] := by simp
    calc scatterWrite arr (p :: ps)
        = scatterWrite (arr.set p.1 p.2) ps := rfl
      _ = (arr.set p.1 p.2).take (k + 1) ++ ps.map Prod.snd := ih _ _ hps hlen2
      _ = arr.take k ++ p.2 :: ps.map Prod.snd := by
          rw [htake, List.append_assoc]; rfl

lemma mapping_ar_countsDict (t : Table) (c : ℚ) (m : Nat) :
    mapping_ar (countsDict t c m) = (List.range (m + 1)).map (dictVal t c) := by
  unfold mapping_ar
  rw [countsDict_fst, listMax_range]
  have hfst : (countsDict t c m).map Prod.fst = List.range' 0 (countsDict t c m).length := by
    rw [countsDict_fst]
    have hlen : (countsDict t c m).length = m + 1 := by
      rw [countsDict_eq]; simp
    rw [hlen, List.range_eq_range']
  have := scatterWrite_range' (countsDict t c m) (List.replicate (m + 1) 0) 0 hfst
    (by
      rw [List.length_replicate, countsDict_eq]
      simp)
  rw [this]
  simp only [List.take_zero, List.nil_append]
  rw [countsDict_eq, List.map_map]
  rfl

lemma buildLookup_eq (t : Table) (c : ℚ) (anno : Volume) :
    buildLookup t c anno = (List.range (volMax anno + 1)).map (dictVal t c) :=
  mapping_ar_countsDict t c (volMax anno)

lemma buildLookup_length (t : Table) (c : ℚ) (anno : Volume) :
    (buildLookup t c anno).length = volMax anno + 1 := by
  rw [buildLookup_eq]; simp

lemma buildLookup_get? (t : Table) (c : ℚ) (anno : Volume) {i : Nat}
    (hi : i ≤ volMax anno) :
    (buildLookup t c anno).get? i = some (dictVal t c i) := by
  rw [buildLookup_eq, List.get?_map, List.get?_range (Nat.lt_succ_of_le hi)]
  rfl

/-! Lemmas about `lookupId`. -/

lemma lookupId_scale (t : Table) (c : ℚ) (i : Nat) :
    lookupId (scaleTable t c) i = (lookupId t i).map (· * c) := by
  induction t with
  | nil => rfl
  | cons p ps ih =>
    by_cases h : p.1 = i
    · simp [lookupId, scaleTable, List.find?_cons, h]
    · have hb : (p.1 == i) = false := beq_false_of_ne h
      simp only [lookupId, scaleTable, List.map_cons, List.find?_cons, hb] at *
      exact ih

lemma lookupId_eq_of_mem {t : Table} {i : Nat} {v : ℚ} :
    (t.map Prod.fst).Nodup → (i, v) ∈ t → lookupId t i = some v := by
  induction t with
  | nil => exact fun _ hm => absurd hm (List.not_mem_nil _)
  | cons p ps ih =>
    intro hnd hm
    rw [List.map_cons, List.nodup_cons] at hnd
    rcases List.mem_cons.1 hm with hm | hm
    · subst hm
      simp [lookupId, List.find?_cons]
    · have hne : p.1 ≠ i := by
        intro he
        exact hnd.1 (he ▸ List.mem_map.2 ⟨(i, v), hm, rfl⟩)
      have hb : (p.1 == i) = false := beq_false_of_ne hne
      simp only [lookupId, List.find?_cons, hb]
      exact ih hnd.2 hm

lemma lookupId_eq_none {t : Table} {i : Nat} :
    i ∉ t.map Prod.fst → lookupId t i = none := by
  induction t with
  | nil => exact fun _ => rfl
  | cons p ps ih =>
    intro h
    rw [List.map_cons, List.mem_cons, not_or] at h
    have hb : (p.1 == i) = false := beq_false_of_ne (fun he => h.1 he.symm)
    simp only [lookupId, List.find?_cons, hb]
    exact ih h.2

lemma lookupId_append_ne (t : Table) (j : Nat) (w : ℚ) {i : Nat} (h : i ≠ j) :
    lookupId (t ++ [(j, w)]) i = lookupId t i := by
  induction t with
  | nil => simp [lookupId, List.find?_cons, beq_false_of_ne (fun he => h he.symm)]
  | cons p ps ih =>
    by_cases hp : p.1 = i
    · simp [lookupId, List.find?_cons, hp]
    · have hb : (p.1 == i) = false := beq_false_of_ne hp
      simp only [lookupId, List.cons_append, List.find?_cons, hb] at *
      exact ih

lemma scaleTable_fst (t : Table) (c : ℚ) :
    (scaleTable t c).map Prod.fst = t.map Prod.fst := by
  unfold scaleTable
  rw [List.map_map]
  rfl

lemma scaleTable_append (t : Table) (l : Table) (c : ℚ) :
    scaleTable (t ++ l) c = scaleTable t c ++ scaleTable l c :=
  List.map_append _ _ _

/-! Claim C1. -/

/-- C1 (amended): for a label volume with maximum id `M`, a metric table with
distinct ids and a correction factor `c`, the Lookup Array has size `M + 1`,
its entry at index `0` is forced to `0`, for every index `i` in `1..M` the
entry equals the table's value times `c` when id `i` is present and `0` when
absent, and table entries whose id exceeds `M` are ignored without error. -/
theorem lookup_array_build (t : Table) (c : ℚ) (anno : Volume)
    (hnd : (t.map Prod.fst).Nodup) :
    (buildLookup t c anno).length = volMax anno + 1 ∧
    (buildLookup t c anno).get? 0 = some 0 ∧
    (∀ i v, 1 ≤ i → i ≤ volMax anno → (i, v) ∈ t →
      (buildLookup t c anno).get? i = some (v * c)) ∧
    (∀ i, i ≤ volMax anno → i ∉ t.map Prod.fst →
      (buildLookup t c anno).get? i = some 0) ∧
    (∀ j w, volMax anno < j →
      buildLookup (t ++ [(j, w)]) c anno = buildLookup t c anno) := by
  refine ⟨buildLookup_length t c anno, ?_, ?_, ?_, ?_⟩
  · rw [buildLookup_get? t c anno (Nat.zero_le _)]
    rfl
  · intro i v h1 hM hm
    rw [buildLookup_get? t c anno hM]
    have hne : i ≠ 0 := by omega
    rw [dictVal, if_neg hne, lookupId_scale, lookupId_eq_of_mem hnd hm]
    rfl
  · intro i hM habs
    rw [buildLookup_get? t c anno hM]
    by_cases hne : i = 0
    · rw [dictVal, if_pos hne]
    · rw [dictVal, if_neg hne, lookupId_scale,
        lookupId_eq_none habs]
      rfl
  · intro j w hj
    rw [buildLookup_eq, buildLookup_eq]
    refine List.map_congr_left ?_
    intro i hi
    have hiM : i ≤ volMax anno := Nat.lt_succ_iff.1 (List.mem_range.1 hi)
    by_cases hne : i = 0
    · simp [dictVal, hne]
    · rw [dictVal, dictVal, if_neg hne, if_neg hne, scaleTable_append]
      have : scaleTable [(j, w)] c = [(j, w * c)] := rfl
      rw [this, lookupId_append_ne _ _ _ (by omega : i ≠ j)]

/-- C1, the claim as frozen, is refuted at index `0`: with a table whose row
for id `0` carries the value `7` and a volume with maximum id `1`, the claim
requires the Lookup Array entry at index `0` to be `7 * 1`, but the
construction forces it to `0`. -/
theorem lookup_array_build_cex :
    ¬ ((buildLookup [(0, 7)] 1 [[[0, 1]]]).get? 0 = some (7 * 1)) := by
  norm_num [buildLookup, mapping_ar, countsDict, dictSet, reindexFill, scaleTable,
    lookupId, scatterWrite, listMax, volMax, sliceMax, List.range_succ]

theorem lookup_array_build_witness :
    (([((1 : Nat), (5 : ℚ))].map Prod.fst).Nodup ∧
      (buildLookup [(1, 5)] 2 [[[0, 1]]]).get? 1 = some (5 * 2)) :=
  ⟨by decide,
    (lookup_array_build [(1, 5)] 2 [[[0, 1]]] (by decide)).2.2.1 1 5 (by decide)
      (by decide) (by decide)⟩

/-! Claim C2. -/

/-- C2: for every metric table (including one whose row for id `0` carries a
nonzero value), every correction factor and every volume, the Lookup Array
entry at index `0` is `0`; in particular the table `[(0, 7)]` still yields the
array `[0]`. -/
theorem lookup_zero_always_zero :
    (∀ (t : Table) (c : ℚ) (anno : Volume), (buildLookup t c anno).get? 0 = some 0) ∧
    buildLookup [(0, 7)] 1 [[[0]]] = [0] := by
  constructor
  · intro t c anno
    rw [buildLookup_get? t c anno (Nat.zero_le _)]
    rfl
  · norm_num [buildLookup, mapping_ar, countsDict, dictSet, reindexFill, scaleTable,
      lookupId, scatterWrite, listMax, volMax, sliceMax, List.range_succ]

/-! Claim C3. -/

lemma optionTraverse_eq_map {α β : Type} (f : α → Option β) (g : α → β) :
    ∀ (l : List α), (∀ a ∈ l, f a = some (g a)) → optionTraverse f l = some (l.map g) := by
  intro l
  induction l with
  | nil => exact fun _ => rfl
  | cons a tl ih =>
    intro h
    simp only [optionTraverse, h a (List.mem_cons_self _ _),
      ih (fun x hx => h x (List.mem_cons_of_mem _ hx)), List.map_cons]

lemma label_le_volMax {anno : Volume} {s : Slice} {row : List Nat} {l : Nat}
    (hs : s ∈ anno) (hrow : row ∈ s) (hl : l ∈ row) : l ≤ volMax anno :=
  le_trans (le_listMax hl)
    (le_trans (le_listMax (List.mem_map.2 ⟨row, hrow, rfl⟩))
      (le_listMax (List.mem_map.2 ⟨s, hs, rfl⟩)))

/-- C3: for every 2D slice of the label volume, the numpy fancy indexing
`mapping_ar[anno_slice]` succeeds and substitutes each label by its Lookup
Array entry; in particular the spec's scenario slice, table and factor give
exactly the spec's Rendered Slice. -/
theorem render_slice_indexing :
    (∀ (t : Table) (c : ℚ) (anno : Volume) (s : Slice), s ∈ anno →
        renderSlice (buildLookup t c anno) s =
          some (s.map (fun row => row.map (fun l =>
            ((buildLookup t c anno).get? l).getD 0)))) ∧
    renderSlice (buildLookup [(1, 10), (2, 20), (3, 0)] 1 [[[1,1,2],[1,1,2],[3,3,2]]])
        [[1,1,2],[1,1,2],[3,3,2]] =
      some [[10,10,20],[10,10,20],[0,0,20]] := by
  constructor
  · intro t c anno s hs
    unfold renderSlice
    apply optionTraverse_eq_map
    intro row hrow
    apply optionTraverse_eq_map
    intro l hl
    obtain ⟨q, hq⟩ : ∃ q, (buildLookup t c anno).get? l = some q :=
      ⟨_, buildLookup_get? t c anno (label_le_volMax hs hrow hl)⟩
    rw [hq]
    rfl
  · norm_num [renderSlice, optionTraverse, buildLookup_eq, dictVal, lookupId, scaleTable,
      volMax, sliceMax, listMax, List.range_succ]

theorem render_slice_indexing_witness :
    (([[1,1,2],[1,1,2],[3,3,2]] : Slice) ∈ ([[[1,1,2],[1,1,2],[3,3,2]]] : Volume)) ∧
    renderSlice (buildLookup [(1, 10), (2, 20), (3, 0)] 1 [[[1,1,2],[1,1,2],[3,3,2]]])
        [[1,1,2],[1,1,2],[3,3,2]] =
      some (([[1,1,2],[1,1,2],[3,3,2]] : Slice).map (fun row => row.map (fun l =>
        ((buildLookup [(1, 10), (2, 20), (3, 0)] 1
          [[[1,1,2],[1,1,2],[3,3,2]]]).get? l).getD 0))) :=
  ⟨List.mem_cons_self _ _,
    render_slice_indexing.1 _ _ _ _ (List.mem_cons_self _ _)⟩

/-! Claim C7. -/

lemma any_congr {α : Type} {p q : α → Bool} :
    ∀ (l : List α), (∀ a ∈ l, p a = q a) → l.any p = l.any q := by
  intro l
  induction l with
  | nil => exact fun _ => rfl
  | cons a tl ih =>
    intro h
    simp only [List.any_cons, h a (List.mem_cons_self _ _),
      ih (fun x hx => h x (List.mem_cons_of_mem _ hx))]

lemma getLabel_relabel (f : Nat → Nat) (s : Slice) (r c : ℤ) :
    getLabel (relabel f s) r c = (getLabel s r c).map f := by
  unfold getLabel relabel
  by_cases h : 0 ≤ r ∧ 0 ≤ c
  · rw [if_pos h, if_pos h, List.get?_map]
    cases hrow : s.get? r.toNat with
    | none => rfl
    | some row =>
      simp only [Option.map_some', Option.some_bind]
      rw [List.get?_map]
  · rw [if_neg h, if_neg h]
    rfl

lemma bne_of_injective {f : Nat → Nat} (hf : Function.Injective f) (w v : Nat) :
    (f w != f v) = (w != v) := by
  by_cases h : w = v
  · subst h
    simp
  · have hne : f w ≠ f v := fun hh => h (hf hh)
    have h1 : (f w != f v) = true := bne_iff_ne.2 hne
    have h2 : (w != v) = true := bne_iff_ne.2 h
    rw [h1, h2]

lemma isBoundary_relabel {f : Nat → Nat} (hf : Function.Injective f)
    (s : Slice) (r c : ℤ) :
    isBoundary (relabel f s) r c = isBoundary s r c := by
  unfold isBoundary
  rw [getLabel_relabel]
  cases hv : getLabel s r c with
  | none => rfl
  | some v =>
    simp only [Option.map_some']
    apply any_congr
    intro d _
    rw [getLabel_relabel]
    cases hw : getLabel s (r + d.1) (c + d.2) with
    | none => rfl
    | some w =>
      simp only [Option.map_some']
      exact bne_of_injective hf w v

lemma relabel_row_length (f : Nat → Nat) (s : Slice) (r : Nat) :
    (((relabel f s).get? r).getD []).length = ((s.get? r).getD []).length := by
  unfold relabel
  rw [List.get?_map]
  cases s.get? r with
  | none => rfl
  | some row => simp

lemma findBoundariesThick_relabel {f : Nat → Nat} (hf : Function.Injective f)
    (s : Slice) :
    findBoundariesThick (relabel f s) = findBoundariesThick s := by
  unfold findBoundariesThick
  have hlen : (relabel f s).length = s.length := List.length_map _ _
  rw [hlen]
  refine List.map_congr_left ?_
  intro r _
  rw [relabel_row_length]
  refine List.map_congr_left ?_
  intro c _
  exact isBoundary_relabel hf s _ _

/-- C7: for every 2D label slice and every injective relabelling of the region
ids, the Boundary Mask (thick-mode boundaries thickened by one dilation pass)
marks exactly the same pixels before and after relabelling. -/
theorem boundary_mask_relabel_invariant (f : Nat → Nat)
    (hf : Function.Injective f) (s : Slice) :
    boundaryMask (relabel f s) = boundaryMask s := by
  unfold boundaryMask
  rw [findBoundariesThick_relabel hf]

theorem boundary_mask_relabel_invariant_witness :
    Function.Injective (fun n => n + 1) ∧
    boundaryMask (relabel (fun n => n + 1) [[1,1,2],[1,1,2],[3,3,2]]) =
      boundaryMask [[1,1,2],[1,1,2],[3,3,2]] :=
  ⟨fun _ _ h => Nat.succ_injective h,
    boundary_mask_relabel_invariant _ (fun _ _ h => Nat.succ_injective h) _⟩

lemma le_pyRound (x : ℚ) : ⌊x⌋ ≤ pyRound x := by
  unfold pyRound
  split_ifs <;> omega

lemma pyRound_le (x : ℚ) : pyRound x ≤ ⌊x⌋ + 1 := by
  unfold pyRound
  split_ifs <;> omega

lemma pyRound_mono {x y : ℚ} (h : x ≤ y) : pyRound x ≤ pyRound y := by
  rcases lt_or_le ⌊x⌋ ⌊y⌋ with hf | hf
  · have h1 := pyRound_le x
    have h2 := le_pyRound y
    omega
  · have hfe : ⌊x⌋ = ⌊y⌋ := le_antisymm (Int.floor_le_floor h) hf
    unfold pyRound
    rw [hfe]
    split_ifs <;> first | omega | linarith

/-! Claim C8. -/

/-- C8: for fixed `round_to > 0` the display bound is monotone in the maximum
metric value. -/
theorem density_bound_mono (roundTo m1 m2 : ℚ) (hrt : 0 < roundTo)
    (h : m1 ≤ m2) : densityBound roundTo m1 ≤ densityBound roundTo m2 := by
  unfold densityBound
  have harg : m1 * (11/10) / roundTo ≤ m2 * (11/10) / roundTo :=
    (div_le_div_right hrt).2 (by linarith)
  have hr := pyRound_mono harg
  have hcast : ((pyRound (m1 * (11/10) / roundTo) : ℚ) + 1) ≤
      ((pyRound (m2 * (11/10) / roundTo) : ℚ) + 1) := by
    have : ((pyRound (m1 * (11/10) / roundTo) : ℚ)) ≤
        ((pyRound (m2 * (11/10) / roundTo) : ℚ)) := Int.cast_le.2 hr
    linarith
  exact mul_le_mul_of_nonneg_left hcast (le_of_lt hrt)

theorem density_bound_mono_witness :
    ((0 : ℚ) < 500) ∧ ((1000 : ℚ) ≤ 1240) ∧
      densityBound 500 1000 ≤ densityBound 500 1240 :=
  ⟨by norm_num, by norm_num,
    density_bound_mono 500 1000 1240 (by norm_num) (by norm_num)⟩

/-! Lemmas about the panel computations. -/

lemma renderPanelWith_ok {dict : Table} {bound alpha : ℚ} {anno : Volume}
    {z : Nat} {p : PanelSpec}
    (h : renderPanelWith dict bound alpha anno z = .ok p) :
    p.vmax = bound ∧ p.borderAlpha = alpha := by
  unfold renderPanelWith at h
  split at h
  · cases h
  · split at h
    · cases h
    · cases h
      exact ⟨rfl, rfl⟩

lemma exceptTraverse_ok_mem {ε α β : Type} (f : α → Except ε β) :
    ∀ (l : List α) (bs : List β), exceptTraverse f l = .ok bs →
      ∀ b ∈ bs, ∃ a ∈ l, f a = .ok b := by
  intro l
  induction l with
  | nil =>
    intro bs h b hb
    cases h
    exact absurd hb (List.not_mem_nil _)
  | cons a l ih =>
    intro bs h b hb
    unfold exceptTraverse at h
    split at h
    · cases h
    · rename_i v hfa
      split at h
      · cases h
      · rename_i vs ht
        cases h
        rcases List.mem_cons.1 hb with hb | hb
        · exact ⟨a, List.mem_cons_self _ _, by rw [hb]; exact hfa⟩
        · obtain ⟨x, hx, hfx⟩ := ih vs ht b hb
          exact ⟨x, List.mem_cons_of_mem _ hx, hfx⟩

/-! Claim C5. -/

/-- C5: whenever the grid layout has fewer cells than requested z-slices,
`make_heatmap_fig` fails with the message naming the layout and the slice
count — for every annotation argument, in particular an unreadable one
(`none`): the check runs before the file is read and before any rendering. -/
theorem layout_check_fails_fast (anno_file : Option Volume) (cell_counts : Table)
    (zs : List Nat) (layout : Nat × Nat) (c rt lfs lns : ℚ)
    (h : layout.1 * layout.2 < zs.length) :
    make_heatmap_fig anno_file cell_counts zs (some layout) c rt lfs lns =
      .error (layoutErrorMsg layout zs.length) := by
  simp only [make_heatmap_fig, Option.getD_some]
  rw [if_pos h]

theorem layout_check_fails_fast_witness :
    ((2 : Nat) * 4 < (List.range 9).length) ∧
    make_heatmap_fig none [] (List.range 9) (some (2, 4)) 1 10 20 18 =
      .error (layoutErrorMsg (2, 4) (List.range 9).length) :=
  ⟨by decide, layout_check_fails_fast none [] (List.range 9) (2, 4) 1 10 20 18 (by decide)⟩

/-! Claim C4. -/

/-- C4: the display bound is `round_to * (round(max(metric) * 1.1 / round_to) + 1)`,
computed once per figure from the (scaled) metric table and shared by every
panel of the figure, and `write_one_heatmap` uses the same formula; for
`round_to = 500` and maximum metric `1240` the bound is `2000`. -/
theorem density_bound_shared :
    (∀ (anno_file : Option Volume) (cell_counts : Table) (zs : List Nat)
        (fig_layout : Option (Nat × Nat)) (c rt lfs lns mx : ℚ) (fig : FigureSpec),
        seriesMax (scaledValues cell_counts c) = some mx →
        make_heatmap_fig anno_file cell_counts zs fig_layout c rt lfs lns = .ok fig →
        ∀ p ∈ fig.panels, p.vmax = densityBound rt mx) ∧
    (∀ (custom : String) (anno : Volume) (counts : List ℚ) (dict : Table)
        (z : Nat) (bc fn cm : String) (rt : ℚ) (fx fy : Bool) (mx : ℚ)
        (out : String × HeatmapImage),
        seriesMax counts = some mx →
        write_one_heatmap custom anno counts dict z bc fn cm rt fx fy = .ok out →
        out.2.vmax = densityBound rt mx) ∧
    densityBound 500 1240 = 2000 := by
  refine ⟨?_, ?_, ?_⟩
  · intro anno_file cell_counts zs fig_layout c rt lfs lns mx fig hmx hok
    intro p hp
    simp only [make_heatmap_fig] at hok
    split at hok
    · cases hok
    · split at hok
      · cases hok
      · rename_i anno
        split at hok
        · cases hok
        · rename_i mx' hmx'
          rw [hmx] at hmx'
          cases hmx'
          split at hok
          · split at hok
            · cases hok
            · rename_i q hs
              cases hok
              rcases List.mem_cons.1 hp with hp | hp
              · rw [hp]
                exact (renderPanelWith_ok hs).1
              · exact absurd hp (List.not_mem_nil _)
          · split at hok
            · cases hok
            · rename_i ps hs
              cases hok
              obtain ⟨zz, _, hz⟩ := exceptTraverse_ok_mem _ zs ps hs p hp
              exact (renderPanelWith_ok hz).1
  · intro custom anno counts dict z bc fn cm rt fx fy mx out hmx hok
    simp only [write_one_heatmap] at hok
    split at hok
    · cases hok
    · rename_i mx' hmx'
      rw [hmx] at hmx'
      cases hmx'
      split at hok
      · cases hok
      · split at hok
        · cases hok
        · cases hok
          rfl
  · norm_num [densityBound, pyRound]

theorem density_bound_shared_witness :
    seriesMax (scaledValues [((1 : Nat), (2 : ℚ))] 1) = some 2 ∧
    make_heatmap_fig (some [[[0]]]) [(1, 2)] [0] none 1 10 20 18 =
      .ok ⟨[⟨10, [[0]], [[false]], 2/5⟩], [0, 10], 18, 20⟩ ∧
    ∀ p ∈ (⟨[⟨10, [[0]], [[false]], 2/5⟩], [0, 10], 18, 20⟩ : FigureSpec).panels,
      p.vmax = densityBound 10 2 := by
  have h1 : seriesMax (scaledValues [((1 : Nat), (2 : ℚ))] 1) = some 2 := by
    norm_num [seriesMax, scaledValues, scaleTable]
  have h2 : make_heatmap_fig (some [[[0]]]) [(1, 2)] [0] none 1 10 20 18 =
      .ok ⟨[⟨10, [[0]], [[false]], 2/5⟩], [0, 10], 18, 20⟩ := by
    norm_num [make_heatmap_fig, layoutErrorMsg, seriesMax, scaledValues, scaleTable,
      countsDict, dictSet, reindexFill, lookupId, mapping_ar, scatterWrite, listMax,
      volMax, sliceMax, List.range_succ, densityBound, pyRound, singlePathPanel,
      renderPanelWith, renderSlice, optionTraverse, boundaryMask, dilateCross,
      findBoundariesThick, isBoundary, getLabel, maskAt, nbhd4]
  exact ⟨h1, h2, density_bound_shared.1 _ _ _ _ _ _ _ _ _ _ h1 h2⟩

/-! Claim C6. -/

/-- C6, the claim as frozen, is refuted: on the same dict, bound, volume and
z-index, the single-panel path and the multi-panel loop body hand different
data to matplotlib — the boundary overlay alpha is `0.4` in the former and
`0.5` in the latter. -/
theorem single_multi_panel_paths_cex :
    singlePathPanel [(0, 0)] 0 [[[0]]] 0 ≠ multiPathPanel [(0, 0)] 0 [[[0]]] 0 := by
  norm_num [singlePathPanel, multiPathPanel, renderPanelWith, mapping_ar, scatterWrite,
    listMax, renderSlice, optionTraverse, boundaryMask, dilateCross, findBoundariesThick,
    isBoundary, getLabel, maskAt, nbhd4, List.range_succ]

/-- C6 (amended): whenever both per-panel paths succeed on the same dict,
bound, volume and z-index, they agree on the display bound, the Rendered
Slice and the Boundary Mask; they differ in the boundary overlay alpha, which
is `0.4` in the single-panel path and `0.5` in the multi-panel loop. -/
theorem single_multi_panel_paths_agree (dict : Table) (bound : ℚ) (anno : Volume)
    (z : Nat) (p1 p2 : PanelSpec)
    (h1 : singlePathPanel dict bound anno z = .ok p1)
    (h2 : multiPathPanel dict bound anno z = .ok p2) :
    p1.vmax = p2.vmax ∧ p1.newSlice = p2.newSlice ∧ p1.boundaries = p2.boundaries ∧
      p1.borderAlpha = 2/5 ∧ p2.borderAlpha = 1/2 := by
  unfold singlePathPanel renderPanelWith at h1
  unfold multiPathPanel renderPanelWith at h2
  split at h1
  · cases h1
  · rename_i s1 hz1
    split at h1
    · cases h1
    · rename_i ns1 hr1
      cases h1
      split at h2
      · cases h2
      · rename_i s2 hz2
        rw [hz1] at hz2
        injection hz2 with hs
        subst hs
        split at h2
        · cases h2
        · rename_i ns2 hr2
          rw [hr1] at hr2
          injection hr2 with hns
          subst hns
          cases h2
          exact ⟨rfl, rfl, rfl, rfl, rfl⟩

theorem single_multi_panel_paths_agree_witness :
    singlePathPanel [(0, 0)] 0 [[[0]]] 0 = .ok ⟨0, [[0]], [[false]], 2/5⟩ ∧
    multiPathPanel [(0, 0)] 0 [[[0]]] 0 = .ok ⟨0, [[0]], [[false]], 1/2⟩ ∧
    ((⟨0, [[0]], [[false]], 2/5⟩ : PanelSpec).vmax =
        (⟨0, [[0]], [[false]], 1/2⟩ : PanelSpec).vmax ∧
      (⟨0, [[0]], [[false]], 2/5⟩ : PanelSpec).newSlice =
        (⟨0, [[0]], [[false]], 1/2⟩ : PanelSpec).newSlice ∧
      (⟨0, [[0]], [[false]], 2/5⟩ : PanelSpec).boundaries =
        (⟨0, [[0]], [[false]], 1/2⟩ : PanelSpec).boundaries ∧
      (⟨0, [[0]], [[false]], 2/5⟩ : PanelSpec).borderAlpha = 2/5 ∧
      (⟨0, [[0]], [[false]], 1/2⟩ : PanelSpec).borderAlpha = 1/2) := by
  have h1 : singlePathPanel [(0, 0)] 0 [[[0]]] 0 = .ok ⟨0, [[0]], [[false]], 2/5⟩ := by
    norm_num [singlePathPanel, renderPanelWith, mapping_ar, scatterWrite, listMax,
      renderSlice, optionTraverse, boundaryMask, dilateCross, findBoundariesThick,
      isBoundary, getLabel, maskAt, nbhd4, List.range_succ]
  have h2 : multiPathPanel [(0, 0)] 0 [[[0]]] 0 = .ok ⟨0, [[0]], [[false]], 1/2⟩ := by
    norm_num [multiPathPanel, renderPanelWith, mapping_ar, scatterWrite, listMax,
      renderSlice, optionTraverse, boundaryMask, dilateCross, findBoundariesThick,
      isBoundary, getLabel, maskAt, nbhd4, List.range_succ]
  exact ⟨h1, h2, single_multi_panel_paths_agree _ _ _ _ _ _ h1 h2⟩

/-! Claim C9. -/

/-- C9: `write_one_heatmap` never reads its `border_cmap` parameter — two
calls differing only in `border_cmap` produce identical written images — and
the boundary overlay is drawn with the module-level global `custom_cmap`. -/
theorem border_cmap_unused :
    (∀ (custom : String) (anno : Volume) (counts : List ℚ) (dict : Table)
        (z : Nat) (b1 b2 fn cm : String) (rt : ℚ) (fx fy : Bool),
        write_one_heatmap custom anno counts dict z b1 fn cm rt fx fy =
          write_one_heatmap custom anno counts dict z b2 fn cm rt fx fy) ∧
    (∀ (custom : String) (anno : Volume) (counts : List ℚ) (dict : Table)
        (z : Nat) (bc fn cm : String) (rt : ℚ) (fx fy : Bool)
        (out : String × HeatmapImage),
        write_one_heatmap custom anno counts dict z bc fn cm rt fx fy = .ok out →
        out.2.borderCmapUsed = custom) := by
  constructor
  · intro custom anno counts dict z b1 b2 fn cm rt fx fy
    rfl
  · intro custom anno counts dict z bc fn cm rt fx fy out hok
    simp only [write_one_heatmap] at hok
    split at hok
    · cases hok
    · split at hok
      · cases hok
      · split at hok
        · cases hok
        · cases hok
          rfl

theorem border_cmap_unused_witness :
    write_one_heatmap "Greys" [[[0]]] [1] [(0, 0)] 0 "viridis" "img.png" "hot_r"
        10 false false =
      .ok ("img.png", ⟨10, [[0]], [[false]], "hot_r", "Greys", 2/5, [0, 10]⟩) ∧
    ("img.png",
        (⟨10, [[0]], [[false]], "hot_r", "Greys", 2/5, [0, 10]⟩ :
          HeatmapImage)).2.borderCmapUsed = "Greys" := by
  have h : write_one_heatmap "Greys" [[[0]]] [1] [(0, 0)] 0 "viridis" "img.png"
      "hot_r" 10 false false =
      .ok ("img.png", ⟨10, [[0]], [[false]], "hot_r", "Greys", 2/5, [0, 10]⟩) := by
    norm_num [write_one_heatmap, seriesMax, densityBound, pyRound, mapping_ar,
      scatterWrite, listMax, renderSlice, optionTraverse, boundaryMask, dilateCross,
      findBoundariesThick, isBoundary, getLabel, maskAt, nbhd4, List.range_succ]
  exact ⟨h, border_cmap_unused.2 _ _ _ _ _ _ _ _ _ _ _ _ h⟩

/-! Claim C10. -/

/-- C10: the export loop writes frame `i` (counting from `0`, in the order of
the requested z-indices) to `output_dir + "/img_" + str(i).zfill(4) +
output_ext`; `zfill 4` pads the decimal representation with leading zeros to
width `4`, and the first frames are `img_0000`, `img_0001`, `img_0002`, …
regardless of the z-values themselves. -/
theorem frame_export_numbering :
    (∀ (d e : String) (zs : List Nat),
        frame_filenames d e zs = (List.range zs.length).map (frame_filename d e)) ∧
    (∀ s : String, (zfill 4 s).length = max 4 s.length) ∧
    frame_filename "heatmap_anim_pngs" ".png" 0 = "heatmap_anim_pngs/img_0000.png" ∧
    frame_filename "heatmap_anim_pngs" ".png" 1 = "heatmap_anim_pngs/img_0001.png" ∧
    frame_filenames "d" ".png" [200, 350, 500] =
      ["d/img_0000.png", "d/img_0001.png", "d/img_0002.png"] := by
  refine ⟨?_, ?_, ?_, ?_, ?_⟩
  · intro d e zs
    unfold frame_filenames
    calc zs.enum.map (fun iz => frame_filename d e iz.1)
        = (zs.enum.map Prod.fst).map (frame_filename d e) := by
          rw [List.map_map]
          rfl
      _ = (List.range zs.length).map (frame_filename d e) := by
          rw [List.enum_map_fst]
  · intro s
    unfold zfill
    rw [String.length_append]
    have hmk : (String.mk (List.replicate (4 - s.length) '0')).length =
        4 - s.length := by
      show (List.replicate (4 - s.length) '0').length = 4 - s.length
      exact List.length_replicate _ _
    rw [hmk]
    omega
  · rfl
  · rfl
  · rfl

end FigGen
